import Mathlib

/-!
# RentalTrack rent ledger: a shallow embedding

This development embeds the rent-ledger core of the RentalTrack
application (`src/db/database.ts`) into Lean and settles the stated
properties of the specification against it.

Modelling conventions:
* Money amounts are integers (`Int`); JavaScript `Math.floor(a/b)` is
  `Int.fdiv a b` and the JavaScript remainder `a % b` (sign of the
  dividend) is `Int.tmod a b`.
* Calendar dates are records `CalDate` (year / month / day); `date-fns`
  `addMonths` (with end-of-month clamping) and `addDays` are implemented
  directly, and `dayNumber` linearises a date for whole-day comparisons —
  dates normalised to local midnight differ by an exact number of days,
  so the `Math.ceil` in `calculateTenantStatus` is an exact difference.
* `new Date()` values that are *not* normalised to midnight (as in the
  suspension pass of `runSystemHeartbeat`) are modelled as a day number
  plus a flag telling whether the time of day is strictly past midnight.
* SQL tables are lists; `ORDER BY c DESC, payment_id DESC LIMIT 1` is a
  maximum under the corresponding lexicographic key (payment ids are
  unique, so the maximum is unambiguous).
* Each mutating operation returns `Except` (a thrown error rolls back
  the transaction, so an `error` result leaves the state unchanged).
-/

namespace RentalTrack

/-! ## Calendar dates -/

/-- A calendar date; `month` is 1-based (1 = January). -/
structure CalDate where
  year : Nat
  month : Nat
  day : Nat
deriving DecidableEq, Repr

/-- Gregorian leap-year rule. -/
def isLeap (y : Nat) : Bool :=
  (y % 4 == 0 && y % 100 != 0) || y % 400 == 0

/-- Number of days in a month. -/
def daysInMonth (y m : Nat) : Nat :=
  if m == 2 then (if isLeap y then 29 else 28)
  else if m == 4 || m == 6 || m == 9 || m == 11 then 30
  else 31

/-- `date-fns` `addMonths`: same day-of-month `n` months later, clamped to
the last valid day of the target month. -/
def addMonthsC (d : CalDate) (n : Nat) : CalDate :=
  let total := d.year * 12 + (d.month - 1) + n
  let y := total / 12
  let m := total % 12 + 1
  ⟨y, m, min d.day (daysInMonth y m)⟩

/-- The day after `d`. -/
def nextDayC (d : CalDate) : CalDate :=
  if d.day < daysInMonth d.year d.month then ⟨d.year, d.month, d.day + 1⟩
  else if d.month < 12 then ⟨d.year, d.month + 1, 1⟩
  else ⟨d.year + 1, 1, 1⟩

/-- `date-fns` `addDays` for a non-negative count. -/
def addDaysC (d : CalDate) (n : Nat) : CalDate :=
  nextDayC^[n] d

/-- Days in the months of year `y` strictly before month `m`. -/
def daysBeforeMonth (y m : Nat) : Nat :=
  (List.range (m - 1)).foldl (fun acc i => acc + daysInMonth y (i + 1)) 0

/-- Linearisation of a date to a day count (proleptic Gregorian),
used for whole-day date comparisons. -/
def dayNumber (d : CalDate) : Nat :=
  let y := d.year - 1
  365 * y + y / 4 - y / 100 + y / 400 + daysBeforeMonth d.year d.month + (d.day - 1)

/-! ## Core enumerations -/

/-- Tenant lifecycle status, the values stored in `tenants.status`. -/
inductive Status where
  | paid
  | dueSoon
  | overdue
  | suspended
deriving DecidableEq, Repr

/-- Billing cycle, the values stored in `tenants.rent_cycle`. -/
inductive RentCycle where
  | monthly
  | biweekly
  | quarterly
deriving DecidableEq, Repr

/-! ## Cycle Calculator (`calculateNextDueDate`) -/

/-- `calculateNextDueDate` of `src/db/database.ts`: monthly → +1 calendar
month, biweekly → +14 days, quarterly → +3 calendar months. -/
def calculateNextDueDate (baseDate : CalDate) (rentCycle : RentCycle) : CalDate :=
  match rentCycle with
  | .monthly => addMonthsC baseDate 1
  | .biweekly => addDaysC baseDate 14
  | .quarterly => addMonthsC baseDate 3

/-- `n` applications of the Cycle Calculator (the `for` loop of
`recordPayment` and of `fixPaymentCalculations`). -/
def advanceCycles (d : CalDate) (cycle : RentCycle) (n : Nat) : CalDate :=
  (fun x => calculateNextDueDate x cycle)^[n] d

/-! ## Status Classifier (`calculateTenantStatus`) -/

/-- The `nextDueDate` argument of `calculateTenantStatus` as it arrives at
the function: a well-formed date string carrying a date, a non-empty string
`parseISO` cannot parse (whose timestamp is `NaN`), or an empty / non-string
value caught by the explicit guard. -/
inductive DateInput where
  | valid (day : Int)
  | unparsable
  | empty
deriving DecidableEq, Repr

/-- `NaN`-aware `>` on an optional day difference: every comparison with
`NaN` (here `none`) is false, as in JavaScript. -/
def nanGt (x : Option Int) (n : Int) : Bool :=
  match x with
  | some v => n < v
  | none => false

/-- `NaN`-aware `≥` on an optional day difference. -/
def nanGe (x : Option Int) (n : Int) : Bool :=
  match x with
  | some v => n ≤ v
  | none => false

/-- `calculateTenantStatus` of `src/db/database.ts`. `today` is the current
date normalised to midnight, as a day number. The guard for a falsy or
non-string `nextDueDate` returns early; otherwise `daysUntilDue` is the
whole-day difference (`NaN`, i.e. `none`, for an unparsable string), and the
classification follows the source's comparison chain. -/
def calculateTenantStatus (nextDueDate : DateInput) (hasPayments : Bool)
    (today : Int) : Status :=
  match nextDueDate with
  | .empty => if hasPayments then .dueSoon else .overdue
  | _ =>
    let daysUntilDue : Option Int :=
      match nextDueDate with
      | .valid d => some (d - today)
      | _ => none
    if !hasPayments then
      if nanGe daysUntilDue 0 then .dueSoon else .overdue
    else if nanGt daysUntilDue 3 then .paid
    else if nanGe daysUntilDue 0 then .dueSoon
    else .overdue

/-- Classify a stored (hence well-formed) due date against a midnight-normalised
current day. -/
def classifyDate (nextDueDate : CalDate) (hasPayments : Bool) (today : Int) : Status :=
  calculateTenantStatus (.valid (dayNumber nextDueDate)) hasPayments today

/-! ## Ledger Store: persisted entities -/

/-- A row of the `tenants` table (the columns the ledger core reads). -/
structure Tenant where
  tenant_id : Nat
  room_number : Nat
  start_date : CalDate
  contract_end_date : Option CalDate
  monthly_rent : Int
  rent_cycle : RentCycle
  status : Status
  credit_balance : Int
deriving DecidableEq, Repr

/-- A row of the `payments` table. -/
structure Payment where
  payment_id : Nat
  tenant_id : Nat
  amount_paid : Int
  months_paid_for : Int
  payment_date : CalDate
  next_due_date : CalDate
  rent_amount_at_payment : Int
  rent_cycle_at_payment : RentCycle
deriving DecidableEq, Repr

/-- A row of the `payment_cancellations` audit table. -/
structure Cancellation where
  original_payment_id : Nat
  tenant_id : Nat
  amount : Int
deriving DecidableEq, Repr

/-- The `settings` singleton (the fields the ledger core reads). -/
structure Settings where
  auto_suspend_days : Int
  contract_reminder_days : Int
deriving DecidableEq, Repr

/-- The persisted database state. `nextTenantId` / `nextPaymentId` model the
SQLite `AUTOINCREMENT` counters. -/
structure DB where
  tenants : List Tenant
  payments : List Payment
  cancellations : List Cancellation
  settings : Settings
  nextTenantId : Nat
  nextPaymentId : Nat
deriving DecidableEq, Repr

/-- `SELECT * FROM tenants WHERE tenant_id = ?`. -/
def findTenant (db : DB) (tid : Nat) : Option Tenant :=
  db.tenants.find? (fun t => t.tenant_id == tid)

/-- `SELECT * FROM payments WHERE tenant_id = ?`. -/
def tenantPayments (db : DB) (tid : Nat) : List Payment :=
  db.payments.filter (fun p => p.tenant_id == tid)

/-- Strict lexicographic order on a (date, payment id) sort key. -/
def keyLt (a b : Nat × Nat) : Bool :=
  a.1 < b.1 || (a.1 == b.1 && a.2 < b.2)

/-- Sort key for `ORDER BY next_due_date DESC, payment_id DESC`. -/
def ndKey (p : Payment) : Nat × Nat :=
  (dayNumber p.next_due_date, p.payment_id)

/-- Sort key for `ORDER BY payment_date DESC, payment_id DESC`. -/
def pdKey (p : Payment) : Nat × Nat :=
  (dayNumber p.payment_date, p.payment_id)

/-- The row returned by `ORDER BY key DESC LIMIT 1`: the maximum of the list
under the key (payment ids are unique, so the maximum is unambiguous). -/
def maxBy (key : Payment → Nat × Nat) : List Payment → Option Payment
  | [] => none
  | p :: ps =>
    match maxBy key ps with
    | none => some p
    | some q => if keyLt (key q) (key p) then some p else some q

/-- `SELECT ... FROM payments WHERE tenant_id = ? ORDER BY payment_date
DESC, payment_id DESC LIMIT 1`, as used by `recordPayment`. -/
def lastPaymentByDate (db : DB) (tid : Nat) : Option Payment :=
  maxBy pdKey (tenantPayments db tid)

/-- `SELECT ... FROM payments WHERE tenant_id = ? ORDER BY next_due_date
DESC, payment_id DESC LIMIT 1`, as used by `getTenantNextDueDate` and
`cancelPayment`. -/
def lastPaymentByDueDate (db : DB) (tid : Nat) : Option Payment :=
  maxBy ndKey (tenantPayments db tid)

/-- The base date of a payment allocation (`recordPayment` step 2): the
`next_due_date` of the last payment by payment-date ordering, or the
tenant's `start_date` when no payments exist yet. -/
def recordBaseDate (db : DB) (tid : Nat) (tenant : Tenant) : CalDate :=
  match lastPaymentByDate db tid with
  | some lp => lp.next_due_date
  | none => tenant.start_date

/-- The due date derived from an optional most-recent payment: that
payment's `next_due_date`, or one cycle after the tenant's `start_date`
when there is none. Shared by `getTenantNextDueDate` and by the
restoration step of `cancelPayment`. -/
def dueDateFrom (lastPayment : Option Payment) (tenant : Tenant) : CalDate :=
  match lastPayment with
  | some lp => lp.next_due_date
  | none => calculateNextDueDate tenant.start_date tenant.rent_cycle

/-- `getTenantNextDueDate` of `src/db/database.ts`: the `next_due_date` of
the most recent payment (`ORDER BY next_due_date DESC, payment_id DESC`), or
one cycle after `start_date` when the tenant has no payments. When the tenant
row itself is absent the catch-block fallback returns one month after the
current date. -/
def getTenantNextDueDate (db : DB) (tenantId : Nat) (todayC : CalDate) : CalDate :=
  match findTenant db tenantId with
  | some tenant => dueDateFrom (lastPaymentByDueDate db tenantId) tenant
  | none => addMonthsC todayC 1

/-- `UPDATE tenants SET status = ? WHERE tenant_id = ?`. -/
def setTenantStatus (db : DB) (tid : Nat) (st : Status) : DB :=
  { db with
    tenants := db.tenants.map (fun t =>
      if t.tenant_id == tid then { t with status := st } else t) }

/-! ## Payment Allocator (`Database.recordPayment`) -/

/-- The caller-supplied part of a payment. -/
structure PaymentRequest where
  tenantId : Nat
  amountPaid : Int
  paymentDate : CalDate
deriving DecidableEq, Repr

/-- The failure mode of `recordPayment` (a throw rolls the transaction back). -/
inductive RecordError where
  | tenantNotFound
deriving DecidableEq, Repr

/-- The value returned by `recordPayment` on success. -/
structure RecordResult where
  paymentId : Nat
  shouldAlertPartial : Bool
  outOfOrderWarning : Bool
deriving DecidableEq, Repr

/-- `Database.recordPayment` of `src/db/database.ts`. The base date is the
`next_due_date` of the last payment by `ORDER BY payment_date DESC,
payment_id DESC` (or `start_date` when none); the allocation is
`Math.floor(totalAvailable / rent)` full cycles with the remainder kept as
credit; the due date advances one cycle per covered cycle; a payment dated
before the last recorded payment date is accepted with a warning. `todayC`
is the current date used by the status recomputation. -/
def recordPayment (db : DB) (payment : PaymentRequest) (todayC : CalDate) :
    Except RecordError (DB × RecordResult) :=
  match findTenant db payment.tenantId with
  | none => .error .tenantNotFound
  | some tenant =>
    let lastPayment := lastPaymentByDate db payment.tenantId
    let baseDate := recordBaseDate db payment.tenantId tenant
    let outOfOrder : Bool :=
      match lastPayment with
      | some lp => dayNumber payment.paymentDate < dayNumber lp.payment_date
      | none => false
    let currentRent := tenant.monthly_rent
    let totalAvailable := payment.amountPaid + tenant.credit_balance
    let fullCyclesCovered := Int.fdiv totalAvailable currentRent
    let newCreditBalance := Int.tmod totalAvailable currentRent
    let nextDueDate := advanceCycles baseDate tenant.rent_cycle fullCyclesCovered.toNat
    let newRow : Payment :=
      { payment_id := db.nextPaymentId
        tenant_id := payment.tenantId
        amount_paid := payment.amountPaid
        months_paid_for := fullCyclesCovered
        payment_date := payment.paymentDate
        next_due_date := nextDueDate
        rent_amount_at_payment := currentRent
        rent_cycle_at_payment := tenant.rent_cycle }
    let newStatus := classifyDate nextDueDate true (dayNumber todayC)
    let db1 : DB :=
      { db with
        payments := db.payments ++ [newRow]
        tenants := db.tenants.map (fun t =>
          if t.tenant_id == payment.tenantId then
            { t with credit_balance := newCreditBalance, status := newStatus }
          else t)
        nextPaymentId := db.nextPaymentId + 1 }
    let shouldAlertPartial :=
      (0 < newCreditBalance && newCreditBalance < currentRent)
      || (fullCyclesCovered == 0 && 0 < payment.amountPaid)
    .ok (db1, ⟨db.nextPaymentId, shouldAlertPartial, outOfOrder⟩)

/-! ## Payment Reversal (`Database.cancelPayment`) -/

/-- The failure modes of `cancelPayment` (each rolls the transaction back). -/
inductive CancelError where
  | paymentNotFound
  | tenantNotFound
  | notMostRecent
deriving DecidableEq, Repr

/-- `Database.cancelPayment` of `src/db/database.ts`: only the tenant's most
recent payment (`ORDER BY next_due_date DESC, payment_id DESC`) may be
cancelled; on success the payment row is deleted, the due date reverts to the
previous payment's `next_due_date` (or one cycle after `start_date`), the
credit balance becomes `max(credit_balance - amount_paid, 0)`, the status is
recomputed, and an audit row is appended. -/
def cancelPayment (db : DB) (paymentId : Nat) (todayC : CalDate) :
    Except CancelError DB :=
  match db.payments.find? (fun p => p.payment_id == paymentId) with
  | none => .error .paymentNotFound
  | some payment =>
    match findTenant db payment.tenant_id with
    | none => .error .tenantNotFound
    | some tenant =>
      let isLast : Bool :=
        match lastPaymentByDueDate db payment.tenant_id with
        | some top => top.payment_id == paymentId
        | none => false
      if !isLast then .error .notMostRecent
      else
        let reversedCredit := tenant.credit_balance - payment.amount_paid
        let previousPayment :=
          maxBy ndKey ((tenantPayments db payment.tenant_id).filter
            (fun p => p.payment_id < paymentId))
        let remaining := db.payments.filter (fun p => p.payment_id != paymentId)
        let newNextDueDate := dueDateFrom previousPayment tenant
        let hasOtherPayments :=
          0 < (remaining.filter (fun p => p.tenant_id == payment.tenant_id)).length
        let newStatus := classifyDate newNextDueDate hasOtherPayments (dayNumber todayC)
        .ok { db with
          payments := remaining
          tenants := db.tenants.map (fun t =>
            if t.tenant_id == payment.tenant_id then
              { t with credit_balance := max reversedCredit 0, status := newStatus }
            else t)
          cancellations :=
            db.cancellations ++ [⟨paymentId, payment.tenant_id, payment.amount_paid⟩] }

/-- The state after a `cancelPayment` call: on a thrown error the transaction
is rolled back, so the stored state is unchanged. -/
def cancelPaymentState (db : DB) (paymentId : Nat) (todayC : CalDate) : DB :=
  match cancelPayment db paymentId todayC with
  | .ok db1 => db1
  | .error _ => db

/-! ## Tenant CRUD (`addTenant`, `updateTenant`, `resetCreditBalance`) -/

/-- `Database.checkRoomExists`: is some (other) tenant already in this room? -/
def checkRoomExists (db : DB) (roomNumber : Nat) (excludeTenantId : Option Nat) : Bool :=
  db.tenants.any (fun t =>
    t.room_number == roomNumber &&
      match excludeTenantId with
      | some tid => t.tenant_id != tid
      | none => true)

/-- The caller-supplied fields of a new tenant. -/
structure NewTenant where
  roomNumber : Nat
  startDate : CalDate
  contractEndDate : Option CalDate
  monthlyRent : Int
  rentCycle : RentCycle
deriving DecidableEq, Repr

/-- The failure modes of `addTenant`. -/
inductive AddTenantError where
  | roomAlreadyExists
  | invalidRent
deriving DecidableEq, Repr

/-- `Database.addTenant`: rejects a duplicate room number and a non-positive
rent, then inserts the tenant with the default credit balance 0 and an
initial status classified (without history) from one cycle past the start
date. Returns the new tenant id. -/
def addTenant (db : DB) (tenant : NewTenant) (todayC : CalDate) :
    Except AddTenantError (DB × Nat) :=
  if checkRoomExists db tenant.roomNumber none then .error .roomAlreadyExists
  else if tenant.monthlyRent ≤ 0 then .error .invalidRent
  else
    let firstDueDate := calculateNextDueDate tenant.startDate tenant.rentCycle
    let initialStatus := classifyDate firstDueDate false (dayNumber todayC)
    let row : Tenant :=
      { tenant_id := db.nextTenantId
        room_number := tenant.roomNumber
        start_date := tenant.startDate
        contract_end_date := tenant.contractEndDate
        monthly_rent := tenant.monthlyRent
        rent_cycle := tenant.rentCycle
        status := initialStatus
        credit_balance := 0 }
    .ok ({ db with
            tenants := db.tenants ++ [row]
            nextTenantId := db.nextTenantId + 1 },
         db.nextTenantId)

/-- The caller-supplied fields of a tenant update. -/
structure TenantUpdate where
  roomNumber : Nat
  startDate : CalDate
  monthlyRent : Int
  rentCycle : RentCycle
  contractEndDate : Option CalDate
deriving DecidableEq, Repr

/-- The failure mode of `updateTenant`. -/
inductive UpdateTenantError where
  | roomAlreadyExists
deriving DecidableEq, Repr

/-- `Database.updateTenant`: rejects a room number used by a different
tenant, then overwrites the identity fields, `start_date`, `monthly_rent`,
`rent_cycle` and `contract_end_date` of the row; `credit_balance` and
`status` are left as they were, and the new rent is not validated. -/
def updateTenant (db : DB) (tenantId : Nat) (updates : TenantUpdate) :
    Except UpdateTenantError DB :=
  if checkRoomExists db updates.roomNumber (some tenantId) then
    .error .roomAlreadyExists
  else
    .ok { db with
      tenants := db.tenants.map (fun t =>
        if t.tenant_id == tenantId then
          { t with
            room_number := updates.roomNumber
            start_date := updates.startDate
            monthly_rent := updates.monthlyRent
            rent_cycle := updates.rentCycle
            contract_end_date := updates.contractEndDate }
        else t) }

/-- `Database.resetCreditBalance`: zero the tenant's credit balance. -/
def resetCreditBalance (db : DB) (tenantId : Nat) : DB :=
  { db with
    tenants := db.tenants.map (fun t =>
      if t.tenant_id == tenantId then { t with credit_balance := 0 } else t) }

/-! ## Reconciliation Sweep (`Database.runSystemHeartbeat`) -/

/-- The summary returned by the heartbeat. Alert messages mention one tenant
each; the model records the tenant id per alert. -/
structure HeartbeatResult where
  statusUpdates : Nat
  suspensionAlerts : List Nat
  contractAlerts : List Nat
deriving DecidableEq, Repr

/-- First pass of the heartbeat: for each tenant of the snapshot, re-derive
the due date from the ledger, reclassify, and write the status only when it
differs from the snapshot status, counting the writes. -/
def heartbeatPass1 (todayC : CalDate) : List Tenant → DB → Nat → DB × Nat
  | [], db, n => (db, n)
  | t :: rest, db, n =>
    let nextDueDate := getTenantNextDueDate db t.tenant_id todayC
    let hasPayments := 0 < (tenantPayments db t.tenant_id).length
    let currentStatus := classifyDate nextDueDate hasPayments (dayNumber todayC)
    if currentStatus != t.status then
      heartbeatPass1 todayC rest (setTenantStatus db t.tenant_id currentStatus) (n + 1)
    else
      heartbeatPass1 todayC rest db n

/-- `Math.ceil((today.getTime() - dueDate.getTime()) / dayMs)` where `today`
is NOT normalised to midnight: the whole-day difference plus one when the
time of day is strictly past midnight. -/
def daysOverdueCeil (todayC : CalDate) (pastMidnight : Bool) (due : CalDate) : Int :=
  (dayNumber todayC : Int) - dayNumber due + (if pastMidnight then 1 else 0)

/-- Second pass of the heartbeat: for each tenant whose *snapshot* status is
`Overdue`, suspend and emit one alert when the ceiling of the day difference
exceeds the auto-suspend threshold. -/
def heartbeatPass2 (todayC : CalDate) (pastMidnight : Bool) (threshold : Int) :
    List Tenant → DB → List Nat → DB × List Nat
  | [], db, alerts => (db, alerts)
  | t :: rest, db, alerts =>
    if t.status == .overdue then
      let nextDueDate := getTenantNextDueDate db t.tenant_id todayC
      if threshold < daysOverdueCeil todayC pastMidnight nextDueDate then
        heartbeatPass2 todayC pastMidnight threshold rest
          (setTenantStatus db t.tenant_id .suspended) (alerts ++ [t.tenant_id])
      else heartbeatPass2 todayC pastMidnight threshold rest db alerts
    else heartbeatPass2 todayC pastMidnight threshold rest db alerts

/-- Third pass of the heartbeat: a contract-expiry alert for every tenant
whose `contract_end_date` lies between the (non-midnight) current instant
and `addDays(today, contract_reminder_days)`. No writes. -/
def contractAlertsFor (todayC : CalDate) (pastMidnight : Bool) (lead : Int)
    (tenants : List Tenant) : List Nat :=
  (tenants.filter (fun t =>
    match t.contract_end_date with
    | none => false
    | some ce =>
      ((dayNumber ce : Int) ≤ (dayNumber todayC : Int) + lead)
        && (dayNumber todayC < dayNumber ce
            || (dayNumber ce == dayNumber todayC && !pastMidnight)))).map
    (fun t => t.tenant_id)

/-- The effective auto-suspend threshold: `settings.auto_suspend_days || 30`
(the falsy value 0 falls back to 30). -/
def effThreshold (db : DB) : Int :=
  if db.settings.auto_suspend_days == 0 then 30 else db.settings.auto_suspend_days

/-- The effective contract-reminder lead: `settings.contract_reminder_days
|| 60`. -/
def effLead (db : DB) : Int :=
  if db.settings.contract_reminder_days == 0 then 60
  else db.settings.contract_reminder_days

/-- `Database.runSystemHeartbeat` of `src/db/database.ts`: take a snapshot of
the tenant list, run the reclassification pass, then the suspension pass over
the same snapshot (so pass 2 sees the statuses as they were at the start),
then collect contract alerts. -/
def runSystemHeartbeat (db : DB) (todayC : CalDate) (pastMidnight : Bool) :
    DB × HeartbeatResult :=
  let snapshot := db.tenants
  let pass1 := heartbeatPass1 todayC snapshot db 0
  let pass2 := heartbeatPass2 todayC pastMidnight (effThreshold db) snapshot pass1.1 []
  let alerts := contractAlertsFor todayC pastMidnight (effLead db) snapshot
  (pass2.1, ⟨pass1.2, pass2.2, alerts⟩)

/-- A tenant row with its status field normalised away, for stating that two
database states differ only in tenant statuses. -/
def eraseStatus (t : Tenant) : Tenant :=
  { t with status := .paid }

/-- `db'` is `db` with some tenant statuses rewritten: payments (and every
non-status tenant field, in order) agree. -/
def SameLedger (db db' : DB) : Prop :=
  db'.payments = db.payments
  ∧ db'.tenants.map eraseStatus = db.tenants.map eraseStatus

/-! ## Specification-side predicates -/

/-- The specification's resting-state invariant: every tenant's credit
balance satisfies `0 ≤ credit_balance < monthly_rent`. -/
def CreditInvariant (db : DB) : Prop :=
  ∀ t ∈ db.tenants, 0 ≤ t.credit_balance ∧ t.credit_balance < t.monthly_rent

instance (db : DB) : Decidable (CreditInvariant db) :=
  inferInstanceAs (Decidable (∀ t ∈ db.tenants,
    0 ≤ t.credit_balance ∧ t.credit_balance < t.monthly_rent))

/-- Tenant ids are pairwise distinct (the `tenant_id` primary key). -/
def UniqueTenantIds (db : DB) : Prop :=
  db.tenants.Pairwise (fun a b => a.tenant_id ≠ b.tenant_id)

instance (db : DB) : Decidable (UniqueTenantIds db) :=
  inferInstanceAs (Decidable
    (db.tenants.Pairwise (fun a b : Tenant => a.tenant_id ≠ b.tenant_id)))

/-! ## Concrete fixtures

A one-tenant database used to instantiate the theorems on concrete inputs:
room 101, rent 300,000 UGX, monthly cycle, start 2024-01-01, no payments,
no credit, status consistent with the classifier on 2024-01-15. -/

/-- Fixture tenant. -/
def sampleTenant : Tenant :=
  { tenant_id := 1
    room_number := 101
    start_date := ⟨2024, 1, 1⟩
    contract_end_date := some ⟨2025, 1, 1⟩
    monthly_rent := 300000
    rent_cycle := .monthly
    status := .dueSoon
    credit_balance := 0 }

/-- Fixture database holding only `sampleTenant`. -/
def sampleDB : DB :=
  { tenants := [sampleTenant]
    payments := []
    cancellations := []
    settings := ⟨30, 60⟩
    nextTenantId := 2
    nextPaymentId := 1 }

/-- Fixture payment: January rent, one cycle, due date 2024-02-01. -/
def paymentJan : Payment :=
  { payment_id := 1
    tenant_id := 1
    amount_paid := 300000
    months_paid_for := 1
    payment_date := ⟨2024, 1, 15⟩
    next_due_date := ⟨2024, 2, 1⟩
    rent_amount_at_payment := 300000
    rent_cycle_at_payment := .monthly }

/-- Fixture payment: February rent, one cycle, due date 2024-03-01. -/
def paymentFeb : Payment :=
  { payment_id := 2
    tenant_id := 1
    amount_paid := 300000
    months_paid_for := 1
    payment_date := ⟨2024, 2, 10⟩
    next_due_date := ⟨2024, 3, 1⟩
    rent_amount_at_payment := 300000
    rent_cycle_at_payment := .monthly }

/-- Fixture database with two in-order payments for `sampleTenant`. -/
def sampleDB2 : DB :=
  { tenants := [sampleTenant]
    payments := [paymentJan, paymentFeb]
    cancellations := []
    settings := ⟨30, 60⟩
    nextTenantId := 2
    nextPaymentId := 3 }

/-- Fixture payment with the later payment date but the earlier due date. -/
def paymentEarlyDue : Payment :=
  { payment_id := 1
    tenant_id := 1
    amount_paid := 300000
    months_paid_for := 1
    payment_date := ⟨2024, 2, 1⟩
    next_due_date := ⟨2024, 3, 1⟩
    rent_amount_at_payment := 300000
    rent_cycle_at_payment := .monthly }

/-- Fixture payment (backdated) with the earlier payment date but the later
due date. -/
def paymentLateDue : Payment :=
  { payment_id := 2
    tenant_id := 1
    amount_paid := 300000
    months_paid_for := 1
    payment_date := ⟨2024, 1, 15⟩
    next_due_date := ⟨2024, 4, 1⟩
    rent_amount_at_payment := 300000
    rent_cycle_at_payment := .monthly }

/-- Fixture database where the payment-date ordering and the due-date
ordering select different payments. -/
def sampleDB3 : DB :=
  { tenants := [sampleTenant]
    payments := [paymentEarlyDue, paymentLateDue]
    cancellations := []
    settings := ⟨30, 60⟩
    nextTenantId := 2
    nextPaymentId := 3 }

/-- Fixture tenant holding a 200,000 credit, below the 300,000 rent. -/
def tenantWithCredit : Tenant :=
  { sampleTenant with credit_balance := 200000 }

/-- Fixture database holding only `tenantWithCredit`. -/
def sampleDBCredit : DB :=
  { sampleDB with tenants := [tenantWithCredit] }

/-- Fixture tenant holding a 100,000 credit, below the 300,000 rent. -/
def tenantCredit100 : Tenant :=
  { sampleTenant with credit_balance := 100000 }

/-- Fixture database holding only `tenantCredit100`. -/
def sampleDBCredit100 : DB :=
  { sampleDB with tenants := [tenantCredit100] }

/-- Fixture tenant far past the due date: start 2020-01-01 (first due
2020-02-01), no payments, already marked `Overdue`. -/
def overdueTenant : Tenant :=
  { sampleTenant with start_date := ⟨2020, 1, 1⟩, status := .overdue }

/-- Fixture database holding only `overdueTenant`; the auto-suspend
threshold is the default 30 days. -/
def sampleDBOverdue : DB :=
  { sampleDB with tenants := [overdueTenant] }

/-- Fixture tenant exactly 30 whole days overdue on 2024-03-02: start
2024-01-01, first due 2024-02-01, no payments, marked `Overdue`. -/
def overdueTenant30 : Tenant :=
  { sampleTenant with status := .overdue }

/-- Fixture database holding only `overdueTenant30`. -/
def sampleDBOverdue30 : DB :=
  { sampleDB with tenants := [overdueTenant30] }

/-! ## Theorems

### Claims C6 and C7: the status classifier -/

/-- C6: for every well-formed `next_due_date` and `today`, the classifier
returns `DueSoon`/`Overdue` at the 0 boundary without history, and
`Paid`/`DueSoon`/`Overdue` at the 3/0 boundaries with history; the three
boundary examples hold, and the classifier never returns `Suspended`. -/
theorem classifier_boundaries (d today : Int) :
    (calculateTenantStatus (.valid d) false today =
      if 0 ≤ d - today then .dueSoon else .overdue)
    ∧ (calculateTenantStatus (.valid d) true today =
      if 3 < d - today then .paid
      else if 0 ≤ d - today then .dueSoon
      else .overdue)
    ∧ (∀ b : Bool, calculateTenantStatus (.valid d) b today ≠ .suspended)
    ∧ calculateTenantStatus (.valid (today + 3)) true today = .dueSoon
    ∧ calculateTenantStatus (.valid (today + 4)) true today = .paid
    ∧ calculateTenantStatus (.valid (today - 1)) true today = .overdue := by
  refine ⟨?_, ?_, ?_, ?_, ?_, ?_⟩
  · simp only [calculateTenantStatus, nanGe, nanGt]
    split <;> simp_all
  · simp only [calculateTenantStatus, nanGe, nanGt]
    split <;> simp_all
  · intro b
    cases b <;> simp only [calculateTenantStatus, nanGe, nanGt] <;>
      repeat first | (split <;> simp_all) | simp_all
  · have h3 : ¬ (3 : Int) < today + 3 - today := by omega
    have h0 : (0 : Int) ≤ today + 3 - today := by omega
    simp [calculateTenantStatus, nanGe, nanGt, h3, h0]
  · have h4 : (3 : Int) < today + 4 - today := by omega
    simp [calculateTenantStatus, nanGe, nanGt, h4]
  · have hm : ¬ (3 : Int) < today - 1 - today := by omega
    have hm0 : ¬ (0 : Int) ≤ today - 1 - today := by omega
    simp [calculateTenantStatus, nanGe, nanGt, hm, hm0]

/-- C7 counterexample: on an empty (falsy) `nextDueDate` with payment
history the classifier returns `Due Soon`, not `Overdue` as claimed, and on
a non-empty unparsable string without history it returns `Overdue`, not
`Due Soon` as claimed. -/
theorem classifier_malformed_counterexample :
    calculateTenantStatus .empty true 0 = .dueSoon
    ∧ calculateTenantStatus .empty true 0 ≠ .overdue
    ∧ calculateTenantStatus .unparsable false 0 = .overdue
    ∧ calculateTenantStatus .unparsable false 0 ≠ .dueSoon := by
  refine ⟨rfl, by decide, rfl, by decide⟩

/-- C7 amended: the classifier is total (never throws); on an empty or
non-string `next_due_date` it returns `Due Soon` when the tenant has
payment history and `Overdue` when not, and on a non-empty unparsable
string the `NaN` comparisons all fail and it returns `Overdue` regardless
of history. -/
theorem classifier_malformed (b : Bool) (today : Int) :
    calculateTenantStatus .empty b today = (if b then .dueSoon else .overdue)
    ∧ calculateTenantStatus .unparsable b today = .overdue := by
  cases b <;> exact ⟨rfl, rfl⟩

/-! ### Claim C1: the payment allocation -/

/-- C1: for a tenant with positive rent `r` and credit `c ≥ 0`, recording a
payment of amount `a > 0` stores a payment row with
`cycles_covered = ⌊(a + c) / r⌋`, sets the tenant's credit balance to
`(a + c) mod r`, and sets the row's `next_due_date` to exactly
`cycles_covered` applications of the cycle calculator starting from the base
date (the last payment's `next_due_date`, or `start_date` when none). -/
theorem recordPayment_allocation (db : DB) (req : PaymentRequest)
    (todayC : CalDate) (tenant : Tenant)
    (hfind : findTenant db req.tenantId = some tenant)
    (hr : 0 < tenant.monthly_rent)
    (hc : 0 ≤ tenant.credit_balance)
    (ha : 0 < req.amountPaid) :
    ∃ db1 res, recordPayment db req todayC = .ok (db1, res)
      ∧ (∃ row ∈ db1.payments,
          row.payment_id = res.paymentId
          ∧ row.months_paid_for =
              Int.fdiv (req.amountPaid + tenant.credit_balance) tenant.monthly_rent
          ∧ row.next_due_date =
              advanceCycles (recordBaseDate db req.tenantId tenant)
                tenant.rent_cycle
                (Int.fdiv (req.amountPaid + tenant.credit_balance)
                  tenant.monthly_rent).toNat)
      ∧ (∀ t1 ∈ db1.tenants, t1.tenant_id = req.tenantId →
          t1.credit_balance =
            (req.amountPaid + tenant.credit_balance) % tenant.monthly_rent) := by
  unfold recordPayment
  rw [hfind]
  refine ⟨_, _, rfl, ?_, ?_⟩
  · refine ⟨_, List.mem_append_right _ (List.mem_singleton.mpr rfl), rfl, rfl, rfl⟩
  · intro t1 ht1 hid
    obtain ⟨u, hu, rfl⟩ := List.mem_map.mp ht1
    by_cases h : u.tenant_id == req.tenantId
    · rw [if_pos h]
      exact Int.tmod_eq_emod (by omega) (by omega)
    · rw [if_neg h] at hid
      exact absurd hid (by simpa using h)

/-- C1 witness: on the fixture tenant (rent 300,000, monthly cycle, zero
credit) a payment of 900,000 on 2024-01-15 yields `cycles_covered = 3`, a
zero credit balance, and a due date of 2024-04-01, three months after the
base date 2024-01-01. -/
theorem recordPayment_allocation_witness :
    (∃ db1 res,
      recordPayment sampleDB ⟨1, 900000, ⟨2024, 1, 15⟩⟩ ⟨2024, 1, 15⟩ = .ok (db1, res)
      ∧ (∃ row ∈ db1.payments,
          row.payment_id = res.paymentId
          ∧ row.months_paid_for =
              Int.fdiv (900000 + sampleTenant.credit_balance) sampleTenant.monthly_rent
          ∧ row.next_due_date =
              advanceCycles (recordBaseDate sampleDB 1 sampleTenant)
                sampleTenant.rent_cycle
                (Int.fdiv (900000 + sampleTenant.credit_balance)
                  sampleTenant.monthly_rent).toNat)
      ∧ (∀ t1 ∈ db1.tenants, t1.tenant_id = 1 →
          t1.credit_balance =
            (900000 + sampleTenant.credit_balance) % sampleTenant.monthly_rent))
    ∧ (recordPayment sampleDB ⟨1, 900000, ⟨2024, 1, 15⟩⟩ ⟨2024, 1, 15⟩).toOption.map
        (fun x => (x.1.payments.map Payment.months_paid_for,
                   x.1.tenants.map Tenant.credit_balance,
                   x.1.payments.map Payment.next_due_date))
        = some ([3], [0], [⟨2024, 4, 1⟩]) :=
  ⟨recordPayment_allocation sampleDB ⟨1, 900000, ⟨2024, 1, 15⟩⟩ ⟨2024, 1, 15⟩
      sampleTenant (by decide) (by decide) (by decide) (by decide),
   by decide⟩

/-! ### Claim C8: no amount validation in `recordPayment` -/

/-- C8 counterexample: `recordPayment` accepts a payment of −50,000 on the
fixture tenant — the call succeeds, a payment row is inserted (with
`months_paid_for = −1`), and the tenant's credit balance becomes −50,000,
so the request is not rejected and mutations do occur. -/
theorem recordPayment_nonpositive_counterexample :
    (recordPayment sampleDB ⟨1, -50000, ⟨2024, 1, 15⟩⟩ ⟨2024, 1, 15⟩).toOption.map
        (fun x => (x.1.payments.length,
                   x.1.payments.map Payment.months_paid_for,
                   x.1.tenants.map Tenant.credit_balance))
      = some (1, [-1], [-50000]) := by
  decide

/-- C8 amended: `recordPayment` performs no validation of `amount_paid`; a
request with `amount_paid ≤ 0` against an existing tenant succeeds, inserts
a payment row for that amount, and updates the tenant (the `amount > 0`
check lives only in the record-payment form of the UI layer). -/
theorem recordPayment_accepts_nonpositive (db : DB) (req : PaymentRequest)
    (todayC : CalDate) (tenant : Tenant)
    (hfind : findTenant db req.tenantId = some tenant)
    (_ha : req.amountPaid ≤ 0) :
    ∃ db1 res, recordPayment db req todayC = .ok (db1, res)
      ∧ db1.payments.length = db.payments.length + 1
      ∧ ∃ row ∈ db1.payments, row.payment_id = res.paymentId
          ∧ row.amount_paid = req.amountPaid := by
  unfold recordPayment
  rw [hfind]
  refine ⟨_, _, rfl, by simp, ?_⟩
  exact ⟨_, List.mem_append_right _ (List.mem_singleton.mpr rfl), rfl, rfl⟩

/-- C8 amended, witness: the fixture call with amount 0 succeeds and inserts
a row. -/
theorem recordPayment_accepts_nonpositive_witness :
    ∃ db1 res, recordPayment sampleDB ⟨1, 0, ⟨2024, 1, 15⟩⟩ ⟨2024, 1, 15⟩ = .ok (db1, res)
      ∧ db1.payments.length = sampleDB.payments.length + 1
      ∧ ∃ row ∈ db1.payments, row.payment_id = res.paymentId
          ∧ row.amount_paid = 0 :=
  recordPayment_accepts_nonpositive sampleDB ⟨1, 0, ⟨2024, 1, 15⟩⟩ ⟨2024, 1, 15⟩
    sampleTenant (by decide) (by decide)

/-! ### Claim C4: cancelling a non-latest payment fails without mutation -/

/-- C4: cancelling a payment that is not its tenant's most recent payment
(most recent by `next_due_date` descending then `payment_id` descending)
fails with the not-most-recent conflict error, and the rolled-back state —
tenants, payments and payment_cancellations included — is exactly the
original one. -/
theorem cancelPayment_not_most_recent (db : DB) (paymentId : Nat)
    (todayC : CalDate) (payment : Payment) (tenant : Tenant)
    (hfindp : db.payments.find? (fun p => p.payment_id == paymentId) = some payment)
    (hfindt : findTenant db payment.tenant_id = some tenant)
    (hnotlast : (lastPaymentByDueDate db payment.tenant_id).all
        (fun top => top.payment_id != paymentId) = true) :
    cancelPayment db paymentId todayC = .error .notMostRecent
    ∧ cancelPaymentState db paymentId todayC = db := by
  have hmain : cancelPayment db paymentId todayC = .error .notMostRecent := by
    unfold cancelPayment
    rw [hfindp]
    dsimp only
    rw [hfindt]
    dsimp only
    cases hmax : lastPaymentByDueDate db payment.tenant_id with
    | none => simp [hmax]
    | some top =>
      have htop : (top.payment_id != paymentId) = true := by
        rw [hmax] at hnotlast
        simpa using hnotlast
      simp only [hmax]
      simp only [bne_iff_ne, ne_eq] at htop
      simp [htop]
  exact ⟨hmain, by simp [cancelPaymentState, hmain]⟩

/-- C4 witness: in the two-payment fixture, cancelling payment 1 (whose due
date 2024-02-01 precedes payment 2's 2024-03-01) fails with the
not-most-recent error and leaves the database unchanged. -/
theorem cancelPayment_not_most_recent_witness :
    cancelPayment sampleDB2 1 ⟨2024, 3, 10⟩ = .error .notMostRecent
    ∧ cancelPaymentState sampleDB2 1 ⟨2024, 3, 10⟩ = sampleDB2 :=
  cancelPayment_not_most_recent sampleDB2 1 ⟨2024, 3, 10⟩ paymentJan sampleTenant
    (by decide) (by decide) (by decide)

/-! ### Claim C9: which ordering anchors the due-date computation -/

/-- C9 counterexample: in the out-of-order fixture the most recent payment
by `next_due_date` ordering has due date 2024-04-01, and one monthly cycle
from it would be 2024-05-01; but `recordPayment` of one full rent stores
2024-04-01 — it anchored on the payment-date ordering (whose winner has due
date 2024-03-01), not on the due-date ordering as the claim states. -/
theorem recordPayment_anchor_counterexample :
    (lastPaymentByDueDate sampleDB3 1).map Payment.next_due_date = some ⟨2024, 4, 1⟩
    ∧ advanceCycles ⟨2024, 4, 1⟩ .monthly 1 = ⟨2024, 5, 1⟩
    ∧ (recordPayment sampleDB3 ⟨1, 300000, ⟨2024, 2, 20⟩⟩ ⟨2024, 2, 20⟩).toOption.map
        (fun x => x.1.payments.map Payment.next_due_date)
      = some [⟨2024, 3, 1⟩, ⟨2024, 4, 1⟩, ⟨2024, 4, 1⟩] := by
  refine ⟨by decide, by decide, by decide⟩

/-- C9 amended: `recordPayment` anchors on the `next_due_date` of the most
recent payment by `payment_date` descending then `payment_id` descending
(`start_date` when no payments exist); a payment dated earlier than that
payment's date is still accepted and flagged with a warning, and the
computed `next_due_date` does not depend on the new payment's date (a
backdated payment gets the same due date an in-order one would). -/
theorem recordPayment_anchor (db : DB) (req : PaymentRequest) (todayC : CalDate)
    (tenant : Tenant)
    (hfind : findTenant db req.tenantId = some tenant) :
    ∃ db1 res, recordPayment db req todayC = .ok (db1, res)
      ∧ (∃ row ∈ db1.payments,
          row.payment_id = res.paymentId
          ∧ row.next_due_date =
              advanceCycles (recordBaseDate db req.tenantId tenant) tenant.rent_cycle
                (Int.fdiv (req.amountPaid + tenant.credit_balance)
                  tenant.monthly_rent).toNat)
      ∧ (∀ lp, lastPaymentByDate db req.tenantId = some lp →
          dayNumber req.paymentDate < dayNumber lp.payment_date →
          res.outOfOrderWarning = true)
      ∧ (∀ d2 : CalDate, ∃ db2 res2,
          recordPayment db ⟨req.tenantId, req.amountPaid, d2⟩ todayC = .ok (db2, res2)
          ∧ ∃ row2 ∈ db2.payments,
              row2.payment_id = res2.paymentId
              ∧ row2.next_due_date =
                  advanceCycles (recordBaseDate db req.tenantId tenant)
                    tenant.rent_cycle
                    (Int.fdiv (req.amountPaid + tenant.credit_balance)
                      tenant.monthly_rent).toNat) := by
  unfold recordPayment
  dsimp only
  rw [hfind]
  refine ⟨_, _, rfl,
    ⟨_, List.mem_append_right _ (List.mem_singleton.mpr rfl), rfl, rfl⟩, ?_, ?_⟩
  · intro lp hlp hlt
    simp only [hlp]
    exact decide_eq_true hlt
  · intro d2
    exact ⟨_, _, rfl, _, List.mem_append_right _ (List.mem_singleton.mpr rfl), rfl, rfl⟩

/-- C9 amended, witness: recording a backdated full rent (dated 2024-01-01,
before the last payment date 2024-02-01) on the out-of-order fixture
succeeds, raises the out-of-order warning, and yields the same due date as
the in-order computation. -/
theorem recordPayment_anchor_witness :
    ∃ db1 res,
      recordPayment sampleDB3 ⟨1, 300000, ⟨2024, 1, 1⟩⟩ ⟨2024, 2, 20⟩ = .ok (db1, res)
      ∧ (∃ row ∈ db1.payments,
          row.payment_id = res.paymentId
          ∧ row.next_due_date =
              advanceCycles (recordBaseDate sampleDB3 1 sampleTenant)
                sampleTenant.rent_cycle
                (Int.fdiv (300000 + sampleTenant.credit_balance)
                  sampleTenant.monthly_rent).toNat)
      ∧ (∀ lp, lastPaymentByDate sampleDB3 1 = some lp →
          dayNumber ⟨2024, 1, 1⟩ < dayNumber lp.payment_date →
          res.outOfOrderWarning = true)
      ∧ (∀ d2 : CalDate, ∃ db2 res2,
          recordPayment sampleDB3 ⟨1, 300000, d2⟩ ⟨2024, 2, 20⟩ = .ok (db2, res2)
          ∧ ∃ row2 ∈ db2.payments,
              row2.payment_id = res2.paymentId
              ∧ row2.next_due_date =
                  advanceCycles (recordBaseDate sampleDB3 1 sampleTenant)
                    sampleTenant.rent_cycle
                    (Int.fdiv (300000 + sampleTenant.credit_balance)
                      sampleTenant.monthly_rent).toNat) :=
  recordPayment_anchor sampleDB3 ⟨1, 300000, ⟨2024, 1, 1⟩⟩ ⟨2024, 2, 20⟩ sampleTenant
    (by decide)

/-! ### Claim C2: the credit-balance invariant -/

/-- Two tenant rows of a duplicate-free list with the same id are the same
row. -/
theorem mem_unique_id {l : List Tenant}
    (hu : l.Pairwise (fun a b => a.tenant_id ≠ b.tenant_id))
    {a b : Tenant} (ha : a ∈ l) (hb : b ∈ l)
    (hid : a.tenant_id = b.tenant_id) : a = b := by
  induction l with
  | nil => cases ha
  | cons x xs ih =>
    rcases List.mem_cons.mp ha with rfl | ha0
    · rcases List.mem_cons.mp hb with rfl | hb0
      · rfl
      · exact absurd hid ((List.pairwise_cons.mp hu).1 _ hb0)
    · rcases List.mem_cons.mp hb with rfl | hb0
      · exact absurd hid.symm ((List.pairwise_cons.mp hu).1 _ ha0)
      · exact ih (List.pairwise_cons.mp hu).2 ha0 hb0

/-- A status write touches no credit balance or rent, so it preserves the
credit invariant. -/
theorem setTenantStatus_creditInvariant (db : DB) (tid : Nat) (st : Status)
    (h : CreditInvariant db) : CreditInvariant (setTenantStatus db tid st) := by
  intro t1 ht1
  obtain ⟨u, hu, rfl⟩ := List.mem_map.mp ht1
  by_cases hc : u.tenant_id == tid
  · rw [if_pos hc]
    exact h u hu
  · rw [if_neg hc]
    exact h u hu

/-- The first heartbeat pass only writes statuses, preserving the credit
invariant. -/
theorem heartbeatPass1_creditInvariant (todayC : CalDate) (l : List Tenant)
    (db : DB) (n : Nat) (h : CreditInvariant db) :
    CreditInvariant (heartbeatPass1 todayC l db n).1 := by
  induction l generalizing db n with
  | nil => exact h
  | cons t rest ih =>
    unfold heartbeatPass1
    dsimp only
    split
    · exact ih _ _ (setTenantStatus_creditInvariant _ _ _ h)
    · exact ih _ _ h

/-- The suspension pass only writes statuses, preserving the credit
invariant. -/
theorem heartbeatPass2_creditInvariant (todayC : CalDate) (pm : Bool)
    (threshold : Int) (l : List Tenant) (db : DB) (alerts : List Nat)
    (h : CreditInvariant db) :
    CreditInvariant (heartbeatPass2 todayC pm threshold l db alerts).1 := by
  induction l generalizing db alerts with
  | nil => exact h
  | cons t rest ih =>
    unfold heartbeatPass2
    dsimp only
    split
    · split
      · exact ih _ _ (setTenantStatus_creditInvariant _ _ _ h)
      · exact ih _ _ h
    · exact ih _ _ h

/-- C2 counterexample: on a database satisfying the invariant (credit
200,000 < rent 300,000), `updateTenant` lowers the rent to 100,000 and
succeeds, leaving a resting state where the invariant fails (credit
200,000 ≥ rent 100,000). -/
theorem credit_invariant_counterexample :
    CreditInvariant sampleDBCredit
    ∧ ∃ db1,
        updateTenant sampleDBCredit 1 ⟨101, ⟨2024, 1, 1⟩, 100000, .monthly, none⟩
          = .ok db1
        ∧ ¬ CreditInvariant db1 :=
  ⟨by decide, _, rfl, by decide⟩

/-- C2 amended: the invariant `0 ≤ credit_balance < monthly_rent` is
preserved by `addTenant`, by `recordPayment` with a positive amount, by
`cancelPayment` when stored payment amounts are non-negative, by
`runSystemHeartbeat`, and by `resetCreditBalance`; `updateTenant` is the
exception — it rewrites `monthly_rent` without touching `credit_balance`,
so lowering the rent below an existing credit breaks the invariant. -/
theorem credit_invariant_preservation (db : DB) (todayC : CalDate)
    (hinv : CreditInvariant db) (huniq : UniqueTenantIds db) :
    (∀ nt db1 tid, addTenant db nt todayC = .ok (db1, tid) → CreditInvariant db1)
    ∧ (∀ req tenant db1 res, findTenant db req.tenantId = some tenant →
        0 < req.amountPaid →
        recordPayment db req todayC = .ok (db1, res) → CreditInvariant db1)
    ∧ (∀ pid db1, (∀ p ∈ db.payments, 0 ≤ p.amount_paid) →
        cancelPayment db pid todayC = .ok db1 → CreditInvariant db1)
    ∧ (∀ pm : Bool, CreditInvariant (runSystemHeartbeat db todayC pm).1)
    ∧ (∀ tid, CreditInvariant (resetCreditBalance db tid)) := by
  refine ⟨?_, ?_, ?_, ?_, ?_⟩
  · -- addTenant
    intro nt db1 tid h
    unfold addTenant at h
    split at h
    · exact absurd h (by simp)
    · split at h
      · exact absurd h (by simp)
      · rename_i hrent
        obtain ⟨h1, _⟩ := Prod.mk.injEq .. ▸ (Except.ok.injEq _ _ ▸ h)
        subst h1
        intro t1 ht1
        rcases List.mem_append.mp ht1 with hmem | hmem
        · exact hinv t1 hmem
        · rw [List.mem_singleton.mp hmem]
          refine ⟨le_refl 0, ?_⟩
          show (0 : Int) < nt.monthlyRent
          omega
  · -- recordPayment with a positive amount
    intro req tenant db1 res hfind ha h
    unfold recordPayment at h
    rw [hfind] at h
    dsimp only at h
    obtain ⟨h1, _⟩ := Prod.mk.injEq .. ▸ (Except.ok.injEq _ _ ▸ h)
    subst h1
    intro t1 ht1
    obtain ⟨u, hu, rfl⟩ := List.mem_map.mp ht1
    by_cases hc : u.tenant_id == req.tenantId
    · rw [if_pos hc]
      have hut : u = tenant := by
        refine mem_unique_id huniq hu (List.mem_of_find?_eq_some hfind) ?_
        have h2 := List.find?_some hfind
        simp only [beq_iff_eq] at hc h2
        omega
      have hmem := hinv tenant (List.mem_of_find?_eq_some hfind)
      have hr : 0 < tenant.monthly_rent := by omega
      have htot : 0 ≤ req.amountPaid + tenant.credit_balance := by omega
      constructor
      · rw [Int.tmod_eq_emod htot (by omega)]
        exact Int.emod_nonneg _ (by omega)
      · show Int.tmod (req.amountPaid + tenant.credit_balance) tenant.monthly_rent
          < u.monthly_rent
        rw [hut, Int.tmod_eq_emod htot (by omega)]
        exact Int.emod_lt_of_pos _ hr
    · rw [if_neg hc]
      exact hinv u hu
  · -- cancelPayment with non-negative stored amounts
    intro pid db1 hpos h
    unfold cancelPayment at h
    cases hp : db.payments.find? (fun p => p.payment_id == pid) with
    | none => rw [hp] at h; exact absurd h (by simp)
    | some payment =>
      rw [hp] at h
      dsimp only at h
      cases ht : findTenant db payment.tenant_id with
      | none => rw [ht] at h; exact absurd h (by simp)
      | some tenant =>
        rw [ht] at h
        dsimp only at h
        split at h
        · exact absurd h (by simp)
        · obtain h1 := Except.ok.injEq _ _ ▸ h
          subst h1
          intro t1 ht1
          obtain ⟨u, hu, rfl⟩ := List.mem_map.mp ht1
          by_cases hc : u.tenant_id == payment.tenant_id
          · rw [if_pos hc]
            have hut : u = tenant := by
              refine mem_unique_id huniq hu (List.mem_of_find?_eq_some ht) ?_
              have h2 := List.find?_some ht
              simp only [beq_iff_eq] at hc h2
              omega
            have hmem := hinv tenant (List.mem_of_find?_eq_some ht)
            have hamt : 0 ≤ payment.amount_paid :=
              hpos payment (List.mem_of_find?_eq_some hp)
            constructor
            · exact le_max_right _ _
            · show (tenant.credit_balance - payment.amount_paid) ⊔ 0 < u.monthly_rent
              rw [hut]
              rcases max_cases (tenant.credit_balance - payment.amount_paid) (0 : Int)
                with ⟨heq, _⟩ | ⟨heq, _⟩ <;> rw [heq] <;> omega
          · rw [if_neg hc]
            exact hinv u hu
  · -- runSystemHeartbeat
    intro pm
    unfold runSystemHeartbeat
    dsimp only
    exact heartbeatPass2_creditInvariant _ _ _ _ _ _
      (heartbeatPass1_creditInvariant _ _ _ _ hinv)
  · -- resetCreditBalance
    intro tid t1 ht1
    obtain ⟨u, hu, rfl⟩ := List.mem_map.mp ht1
    have hmem := hinv u hu
    by_cases hc : u.tenant_id == tid
    · rw [if_pos hc]
      refine ⟨le_refl 0, ?_⟩
      show (0 : Int) < u.monthly_rent
      omega
    · rw [if_neg hc]
      exact hmem

/-- C2 amended, witness: the preservation theorem instantiated on the
fixture database with credit 200,000 and rent 300,000. -/
theorem credit_invariant_preservation_witness :
    (∀ nt db1 tid, addTenant sampleDBCredit nt ⟨2024, 1, 15⟩ = .ok (db1, tid) →
        CreditInvariant db1)
    ∧ (∀ req tenant db1 res, findTenant sampleDBCredit req.tenantId = some tenant →
        0 < req.amountPaid →
        recordPayment sampleDBCredit req ⟨2024, 1, 15⟩ = .ok (db1, res) →
        CreditInvariant db1)
    ∧ (∀ pid db1, (∀ p ∈ sampleDBCredit.payments, 0 ≤ p.amount_paid) →
        cancelPayment sampleDBCredit pid ⟨2024, 1, 15⟩ = .ok db1 → CreditInvariant db1)
    ∧ (∀ pm : Bool, CreditInvariant (runSystemHeartbeat sampleDBCredit ⟨2024, 1, 15⟩ pm).1)
    ∧ (∀ tid, CreditInvariant (resetCreditBalance sampleDBCredit tid)) :=
  credit_invariant_preservation sampleDBCredit ⟨2024, 1, 15⟩ (by decide) (by decide)

/-! ### Claim C5: idempotence of the Reconciliation Sweep -/

/-- The status classifier never outputs `Suspended` (for any input shape). -/
theorem classify_ne_suspended (d : DateInput) (b : Bool) (today : Int) :
    calculateTenantStatus d b today ≠ .suspended := by
  cases d <;> cases b <;> simp only [calculateTenantStatus, nanGe, nanGt] <;>
    repeat first | (split <;> simp_all) | simp_all | decide

/-- The write counter of the first heartbeat pass never decreases. -/
theorem heartbeatPass1_mono (todayC : CalDate) (l : List Tenant) (db : DB)
    (n : Nat) : n ≤ (heartbeatPass1 todayC l db n).2 := by
  induction l generalizing db n with
  | nil => exact le_refl n
  | cons t rest ih =>
    unfold heartbeatPass1
    dsimp only
    split
    · exact le_trans (Nat.le_succ n) (ih _ _)
    · exact ih _ _

/-- A first pass that counted no writes performed none: the state is
unchanged. -/
theorem heartbeatPass1_no_writes (todayC : CalDate) (l : List Tenant) (db : DB)
    (n : Nat) :
    (heartbeatPass1 todayC l db n).2 = n → (heartbeatPass1 todayC l db n).1 = db := by
  induction l generalizing db n with
  | nil => intro _; rfl
  | cons t rest ih =>
    unfold heartbeatPass1
    dsimp only
    split
    · intro h
      exact absurd h
        (ne_of_gt (lt_of_lt_of_le (Nat.lt_succ_self n) (heartbeatPass1_mono _ _ _ _)))
    · exact ih _ _

/-- A suspended tenant in the snapshot always increments the write counter:
the classifier never returns `Suspended`, so the recomputed status differs. -/
theorem heartbeatPass1_writes_suspended (todayC : CalDate) (l : List Tenant)
    (db : DB) (n : Nat) (t : Tenant) (ht : t ∈ l) (hs : t.status = .suspended) :
    n < (heartbeatPass1 todayC l db n).2 := by
  induction l generalizing db n with
  | nil => cases ht
  | cons s rest ih =>
    unfold heartbeatPass1
    dsimp only
    split
    · exact lt_of_lt_of_le (Nat.lt_succ_self n) (heartbeatPass1_mono _ _ _ _)
    · rcases List.mem_cons.mp ht with rfl | ht0
      · rename_i hcond
        simp only [bne_iff_ne, ne_eq, not_not] at hcond
        exact absurd (hcond.trans hs) (classify_ne_suspended _ _ _)
      · exact ih _ _ ht0

/-- The alert accumulator of the suspension pass only grows. -/
theorem heartbeatPass2_alerts_prefix (todayC : CalDate) (pm : Bool)
    (threshold : Int) (l : List Tenant) (db : DB) (alerts : List Nat) :
    ∃ tail, (heartbeatPass2 todayC pm threshold l db alerts).2 = alerts ++ tail := by
  induction l generalizing db alerts with
  | nil => exact ⟨[], (List.append_nil alerts).symm⟩
  | cons t rest ih =>
    unfold heartbeatPass2
    dsimp only
    split
    · split
      · obtain ⟨tail, htail⟩ := ih (setTenantStatus db t.tenant_id .suspended)
          (alerts ++ [t.tenant_id])
        exact ⟨t.tenant_id :: tail, by simpa using htail⟩
      · exact ih _ _
    · exact ih _ _

/-- A suspension pass that emitted no alerts performed no writes. -/
theorem heartbeatPass2_no_writes (todayC : CalDate) (pm : Bool) (threshold : Int)
    (l : List Tenant) (db : DB) (alerts : List Nat) :
    (heartbeatPass2 todayC pm threshold l db alerts).2 = alerts →
    (heartbeatPass2 todayC pm threshold l db alerts).1 = db := by
  induction l generalizing db alerts with
  | nil => intro _; rfl
  | cons t rest ih =>
    unfold heartbeatPass2
    dsimp only
    split
    · split
      · intro h
        exfalso
        obtain ⟨tail, htail⟩ := heartbeatPass2_alerts_prefix todayC pm threshold rest
          (setTenantStatus db t.tenant_id .suspended) (alerts ++ [t.tenant_id])
        rw [htail] at h
        have hlen := congrArg List.length h
        simp [List.length_append] at hlen
      · exact ih _ _
    · exact ih _ _

/-- C5 counterexample: on the fixture with one long-overdue tenant the first
sweep suspends the tenant (one suspension alert, no first-pass writes); the
second consecutive sweep performs a tenant-status write — it reclassifies
the tenant the first run suspended back to `Overdue`. -/
theorem heartbeat_idempotence_counterexample :
    (runSystemHeartbeat sampleDBOverdue ⟨2024, 1, 15⟩ true).2.statusUpdates = 0
    ∧ (runSystemHeartbeat sampleDBOverdue ⟨2024, 1, 15⟩ true).2.suspensionAlerts = [1]
    ∧ (runSystemHeartbeat (runSystemHeartbeat sampleDBOverdue ⟨2024, 1, 15⟩ true).1
        ⟨2024, 1, 15⟩ true).2.statusUpdates = 1
    ∧ (runSystemHeartbeat (runSystemHeartbeat sampleDBOverdue ⟨2024, 1, 15⟩ true).1
        ⟨2024, 1, 15⟩ true).1.tenants.map Tenant.status = [.overdue] := by
  refine ⟨by decide, by decide, by decide, by decide⟩

/-- C5 amended: the sweep is write-free on a second consecutive run only if
the first run itself changed nothing; when the first run performed no
first-pass writes and no suspensions the state is unchanged (so the second
run repeats it exactly), but any tenant left `Suspended` — in particular one
the first run just suspended — forces a first-pass status write on the next
run, because the classifier never returns `Suspended`. -/
theorem heartbeat_idempotence (db : DB) (todayC : CalDate) (pm : Bool) :
    ((runSystemHeartbeat db todayC pm).2.statusUpdates = 0
      ∧ (runSystemHeartbeat db todayC pm).2.suspensionAlerts = [] →
        (runSystemHeartbeat db todayC pm).1 = db)
    ∧ (∀ t ∈ db.tenants, t.status = .suspended →
        1 ≤ (runSystemHeartbeat db todayC pm).2.statusUpdates)
    ∧ (∀ t1 ∈ (runSystemHeartbeat db todayC pm).1.tenants, t1.status = .suspended →
        1 ≤ (runSystemHeartbeat (runSystemHeartbeat db todayC pm).1 todayC pm).2.statusUpdates) := by
  refine ⟨?_, ?_, ?_⟩
  · rintro ⟨h1, h2⟩
    unfold runSystemHeartbeat at h1 h2 ⊢
    dsimp only at h1 h2 ⊢
    rw [heartbeatPass2_no_writes _ _ _ _ _ _ h2]
    exact heartbeatPass1_no_writes _ _ _ _ h1
  · intro t ht hs
    unfold runSystemHeartbeat
    dsimp only
    exact heartbeatPass1_writes_suspended _ _ _ _ t ht hs
  · intro t1 ht1 hs
    unfold runSystemHeartbeat
    dsimp only
    exact heartbeatPass1_writes_suspended _ _ _ _ t1 ht1 hs

/-- C5 amended, witness: on the consistent fixture database the first run is
write-free, so the idempotence conjunct applies with its condition satisfied
(shown by evaluation); the suspended-tenant conjuncts hold vacuously there,
and `heartbeat_idempotence_counterexample` shows them biting. -/
theorem heartbeat_idempotence_witness :
    (((runSystemHeartbeat sampleDB ⟨2024, 1, 15⟩ false).2.statusUpdates = 0
      ∧ (runSystemHeartbeat sampleDB ⟨2024, 1, 15⟩ false).2.suspensionAlerts = [] →
        (runSystemHeartbeat sampleDB ⟨2024, 1, 15⟩ false).1 = sampleDB)
    ∧ (∀ t ∈ sampleDB.tenants, t.status = .suspended →
        1 ≤ (runSystemHeartbeat sampleDB ⟨2024, 1, 15⟩ false).2.statusUpdates)
    ∧ (∀ t1 ∈ (runSystemHeartbeat sampleDB ⟨2024, 1, 15⟩ false).1.tenants,
        t1.status = .suspended →
        1 ≤ (runSystemHeartbeat (runSystemHeartbeat sampleDB ⟨2024, 1, 15⟩ false).1
              ⟨2024, 1, 15⟩ false).2.statusUpdates))
    ∧ (runSystemHeartbeat sampleDB ⟨2024, 1, 15⟩ false).2.statusUpdates = 0
    ∧ (runSystemHeartbeat sampleDB ⟨2024, 1, 15⟩ false).2.suspensionAlerts = [] :=
  ⟨heartbeat_idempotence sampleDB ⟨2024, 1, 15⟩ false, by decide, by decide⟩

/-! ### Claim C10: the auto-suspension rule -/

/-- `find?` by tenant id commutes with erasing statuses. -/
theorem find?_map_eraseStatus (l : List Tenant) (tid : Nat) :
    (l.map eraseStatus).find? (fun t => t.tenant_id == tid)
      = (l.find? (fun t => t.tenant_id == tid)).map eraseStatus := by
  induction l with
  | nil => rfl
  | cons t rest ih =>
    by_cases h : (t.tenant_id == tid) = true
    · rw [List.map_cons,
        @List.find?_cons_of_pos _ (fun x => x.tenant_id == tid) (eraseStatus t)
          (rest.map eraseStatus) h,
        @List.find?_cons_of_pos _ (fun x => x.tenant_id == tid) t rest h]
      rfl
    · rw [List.map_cons,
        @List.find?_cons_of_neg _ (fun x => x.tenant_id == tid) (eraseStatus t)
          (rest.map eraseStatus) h,
        @List.find?_cons_of_neg _ (fun x => x.tenant_id == tid) t rest h]
      exact ih

/-- `SameLedger` is reflexive. -/
theorem sameLedger_refl (db : DB) : SameLedger db db :=
  ⟨rfl, rfl⟩

/-- A status write keeps the state `SameLedger`-equal. -/
theorem sameLedger_setTenantStatus (db db' : DB) (tid : Nat) (st : Status)
    (h : SameLedger db db') : SameLedger db (setTenantStatus db' tid st) := by
  refine ⟨h.1, ?_⟩
  rw [← h.2]
  show (db'.tenants.map _).map eraseStatus = _
  rw [List.map_map]
  apply List.map_congr_left
  intro t _
  by_cases hc : (t.tenant_id == tid) = true
  · show eraseStatus (if t.tenant_id == tid then _ else t) = eraseStatus t
    rw [if_pos hc]
    rfl
  · show eraseStatus (if t.tenant_id == tid then _ else t) = eraseStatus t
    rw [if_neg hc]

/-- The first heartbeat pass only rewrites statuses. -/
theorem sameLedger_heartbeatPass1 (db : DB) (todayC : CalDate) (l : List Tenant)
    (db' : DB) (n : Nat) (h : SameLedger db db') :
    SameLedger db (heartbeatPass1 todayC l db' n).1 := by
  induction l generalizing db' n with
  | nil => exact h
  | cons t rest ih =>
    unfold heartbeatPass1
    dsimp only
    split
    · exact ih _ _ (sameLedger_setTenantStatus _ _ _ _ h)
    · exact ih _ _ h

/-- The derived next due date depends only on the ledger part of the state,
not on tenant statuses. -/
theorem getTenantNextDueDate_congr (db db' : DB) (h : SameLedger db db')
    (tid : Nat) (todayC : CalDate) :
    getTenantNextDueDate db' tid todayC = getTenantNextDueDate db tid todayC := by
  have hfind : (findTenant db' tid).map eraseStatus
      = (findTenant db tid).map eraseStatus := by
    unfold findTenant
    rw [← find?_map_eraseStatus, ← find?_map_eraseStatus, h.2]
  have hpay : tenantPayments db' tid = tenantPayments db tid := by
    unfold tenantPayments
    rw [h.1]
  unfold getTenantNextDueDate lastPaymentByDueDate
  rw [hpay]
  cases h1 : findTenant db tid with
  | none =>
    cases h2 : findTenant db' tid with
    | none => rfl
    | some u => rw [h1, h2] at hfind; simp at hfind
  | some u =>
    cases h2 : findTenant db' tid with
    | none => rw [h1, h2] at hfind; simp at hfind
    | some v =>
      rw [h1, h2] at hfind
      simp only [Option.map_some', Option.some.injEq] at hfind
      have h3 := congrArg Tenant.start_date hfind
      have h4 := congrArg Tenant.rent_cycle hfind
      show dueDateFrom (maxBy ndKey (tenantPayments db tid)) v
        = dueDateFrom (maxBy ndKey (tenantPayments db tid)) u
      unfold dueDateFrom
      cases maxBy ndKey (tenantPayments db tid) with
      | some lp => rfl
      | none =>
        show calculateNextDueDate v.start_date v.rent_cycle
          = calculateNextDueDate u.start_date u.rent_cycle
        rw [show v.start_date = u.start_date from h3,
          show v.rent_cycle = u.rent_cycle from h4]

/-- The alerts emitted by the suspension pass: exactly one per snapshot
tenant whose status is `Overdue` and whose ceiling-rounded days overdue
exceed the threshold (the due date read from the reference ledger `db`,
which the pass's own status writes cannot change). -/
theorem heartbeatPass2_alerts_spec (db : DB) (todayC : CalDate) (pm : Bool)
    (threshold : Int) (l : List Tenant) (db' : DB) (acc : List Nat)
    (h : SameLedger db db') :
    (heartbeatPass2 todayC pm threshold l db' acc).2 =
      acc ++ (l.filter (fun t =>
        t.status == .overdue
        && decide (threshold < daysOverdueCeil todayC pm
              (getTenantNextDueDate db t.tenant_id todayC)))).map
        (fun t => t.tenant_id) := by
  induction l generalizing db' acc with
  | nil => simp [heartbeatPass2]
  | cons t rest ih =>
    unfold heartbeatPass2
    dsimp only
    have hdue : getTenantNextDueDate db' t.tenant_id todayC
        = getTenantNextDueDate db t.tenant_id todayC :=
      getTenantNextDueDate_congr db db' h t.tenant_id todayC
    rw [hdue]
    by_cases h1 : (t.status == .overdue) = true
    · rw [if_pos h1]
      by_cases h2 : threshold
          < daysOverdueCeil todayC pm (getTenantNextDueDate db t.tenant_id todayC)
      · rw [if_pos h2, ih _ _ (sameLedger_setTenantStatus _ _ _ _ h),
          List.filter_cons_of_pos (by simp [h1, h2]), List.map_cons]
        simp
      · rw [if_neg h2, ih _ _ h, List.filter_cons_of_neg (by simp [h2])]
    · rw [if_neg h1, ih _ _ h, List.filter_cons_of_neg (by simp [h1])]

/-- Any tenant row left `Suspended` by the suspension pass either carried a
suspended row with the same id into the pass or received one of the pass's
alerts. -/
theorem heartbeatPass2_suspended_origin (todayC : CalDate) (pm : Bool)
    (threshold : Int) (l : List Tenant) (db : DB) (acc : List Nat) :
    ∀ t1 ∈ (heartbeatPass2 todayC pm threshold l db acc).1.tenants,
      t1.status = .suspended →
      (∃ t0 ∈ db.tenants, t0.tenant_id = t1.tenant_id ∧ t0.status = .suspended)
      ∨ t1.tenant_id ∈ (heartbeatPass2 todayC pm threshold l db acc).2 := by
  induction l generalizing db acc with
  | nil => exact fun t1 ht1 hs => Or.inl ⟨t1, ht1, rfl, hs⟩
  | cons t rest ih =>
    unfold heartbeatPass2
    dsimp only
    split
    · split
      · intro t1 ht1 hs
        rcases ih (setTenantStatus db t.tenant_id .suspended)
            (acc ++ [t.tenant_id]) t1 ht1 hs with ⟨t0, ht0, hid, hst⟩ | hmem
        · obtain ⟨u, hu, rfl⟩ := List.mem_map.mp ht0
          by_cases hc : (u.tenant_id == t.tenant_id) = true
          · right
            rw [if_pos hc] at hid
            obtain ⟨tail, htail⟩ := heartbeatPass2_alerts_prefix todayC pm
              threshold rest (setTenantStatus db t.tenant_id .suspended)
              (acc ++ [t.tenant_id])
            rw [htail]
            have : t.tenant_id = t1.tenant_id := by
              have hcid : u.tenant_id = t.tenant_id := by simpa using hc
              have hid0 : u.tenant_id = t1.tenant_id := hid
              omega
            rw [← this]
            simp
          · left
            rw [if_neg hc] at hid hst
            exact ⟨u, hu, hid, hst⟩
        · exact Or.inr hmem
      · exact ih _ _
    · exact ih _ _

/-- Any tenant row left `Suspended` by the reclassification pass carried a
suspended row with the same id into the pass (the pass itself never writes
`Suspended`). -/
theorem heartbeatPass1_suspended_origin (todayC : CalDate) (l : List Tenant)
    (db : DB) (n : Nat) :
    ∀ t1 ∈ (heartbeatPass1 todayC l db n).1.tenants, t1.status = .suspended →
      ∃ t0 ∈ db.tenants, t0.tenant_id = t1.tenant_id ∧ t0.status = .suspended := by
  induction l generalizing db n with
  | nil => exact fun t1 ht1 hs => ⟨t1, ht1, rfl, hs⟩
  | cons t rest ih =>
    unfold heartbeatPass1
    dsimp only
    split
    · intro t1 ht1 hs
      obtain ⟨t0, ht0, hid, hst⟩ := ih _ _ t1 ht1 hs
      obtain ⟨u, hu, rfl⟩ := List.mem_map.mp ht0
      by_cases hc : (u.tenant_id == t.tenant_id) = true
      · rw [if_pos hc] at hst
        have hst0 : classifyDate (getTenantNextDueDate db t.tenant_id todayC)
            (decide (0 < (tenantPayments db t.tenant_id).length))
            (dayNumber todayC) = .suspended := hst
        exact absurd hst0 (classify_ne_suspended _ _ _)
      · rw [if_neg hc] at hid hst
        exact ⟨u, hu, hid, hst⟩
    · exact ih _ _

/-- C10 counterexample: on 2024-03-02 the fixture tenant's due date
2024-02-01 is exactly 30 whole days past — not strictly more than the
30-day threshold, so the claim says no suspension; but the sweep run after
midnight computes `Math.ceil` of a fractional difference (31) and does
suspend the tenant, emitting an alert. -/
theorem heartbeat_suspension_counterexample :
    ((dayNumber ⟨2024, 3, 2⟩ : Int) - dayNumber ⟨2024, 2, 1⟩ = 30)
    ∧ ¬ ((30 : Int) < 30)
    ∧ (runSystemHeartbeat sampleDBOverdue30 ⟨2024, 3, 2⟩ true).2.suspensionAlerts = [1]
    ∧ (runSystemHeartbeat sampleDBOverdue30 ⟨2024, 3, 2⟩ true).1.tenants.map
        Tenant.status = [.suspended] := by
  refine ⟨by decide, by decide, by decide, by decide⟩

/-- C10 amended: the sweep emits exactly one suspension alert per snapshot
tenant that is `Overdue` and whose `Math.ceil`-rounded days overdue exceed
the threshold — since `today` is not normalised to midnight, that is
`(today − next_due_date) + 1 > threshold` whenever the sweep runs strictly
after midnight (so a tenant exactly `threshold` whole days overdue IS
suspended then), and `today − next_due_date > threshold` only when run at
exactly midnight; and every tenant row the sweep leaves `Suspended` either
had a suspended row with its id before the sweep or received one of this
sweep's alerts (which only snapshot-`Overdue` tenants do). -/
theorem heartbeat_suspension (db : DB) (todayC : CalDate) (pm : Bool) :
    (runSystemHeartbeat db todayC pm).2.suspensionAlerts =
      (db.tenants.filter (fun t =>
        t.status == .overdue
        && decide (effThreshold db < daysOverdueCeil todayC pm
              (getTenantNextDueDate db t.tenant_id todayC)))).map
        (fun t => t.tenant_id)
    ∧ (∀ due : CalDate, daysOverdueCeil todayC pm due =
        (dayNumber todayC : Int) - dayNumber due + (if pm then 1 else 0))
    ∧ (∀ t1 ∈ (runSystemHeartbeat db todayC pm).1.tenants, t1.status = .suspended →
        (∃ t0 ∈ db.tenants, t0.tenant_id = t1.tenant_id ∧ t0.status = .suspended)
        ∨ t1.tenant_id ∈ (runSystemHeartbeat db todayC pm).2.suspensionAlerts) := by
  refine ⟨?_, fun _ => rfl, ?_⟩
  · unfold runSystemHeartbeat
    dsimp only
    have := heartbeatPass2_alerts_spec db todayC pm (effThreshold db) db.tenants
      (heartbeatPass1 todayC db.tenants db 0).1 []
      (sameLedger_heartbeatPass1 db todayC _ db 0 (sameLedger_refl db))
    simpa using this
  · intro t1 ht1 hs
    unfold runSystemHeartbeat at ht1 ⊢
    dsimp only at ht1 ⊢
    rcases heartbeatPass2_suspended_origin todayC pm (effThreshold db) db.tenants
        (heartbeatPass1 todayC db.tenants db 0).1 [] t1 ht1 hs with
      ⟨t0, ht0, hid, hst⟩ | hmem
    · obtain ⟨t00, ht00, hid0, hst0⟩ :=
        heartbeatPass1_suspended_origin todayC db.tenants db 0 t0 ht0 hst
      exact Or.inl ⟨t00, ht00, hid0.trans hid, hst0⟩
    · exact Or.inr hmem

/-- C10 amended, witness: the characterization instantiated on the
30-days-overdue fixture at a past-midnight instant, where the alert list is
`[1]` by the first conjunct (and by direct evaluation). -/
theorem heartbeat_suspension_witness :
    ((runSystemHeartbeat sampleDBOverdue30 ⟨2024, 3, 2⟩ true).2.suspensionAlerts =
      (sampleDBOverdue30.tenants.filter (fun t =>
        t.status == .overdue
        && decide (effThreshold sampleDBOverdue30 < daysOverdueCeil ⟨2024, 3, 2⟩ true
              (getTenantNextDueDate sampleDBOverdue30 t.tenant_id ⟨2024, 3, 2⟩)))).map
        (fun t => t.tenant_id)
    ∧ (∀ due : CalDate, daysOverdueCeil ⟨2024, 3, 2⟩ true due =
        (dayNumber ⟨2024, 3, 2⟩ : Int) - dayNumber due + (if true then 1 else 0))
    ∧ (∀ t1 ∈ (runSystemHeartbeat sampleDBOverdue30 ⟨2024, 3, 2⟩ true).1.tenants,
        t1.status = .suspended →
        (∃ t0 ∈ sampleDBOverdue30.tenants, t0.tenant_id = t1.tenant_id
          ∧ t0.status = .suspended)
        ∨ t1.tenant_id ∈
            (runSystemHeartbeat sampleDBOverdue30 ⟨2024, 3, 2⟩ true).2.suspensionAlerts))
    ∧ (runSystemHeartbeat sampleDBOverdue30 ⟨2024, 3, 2⟩ true).2.suspensionAlerts = [1] :=
  ⟨heartbeat_suspension sampleDBOverdue30 ⟨2024, 3, 2⟩ true, by decide⟩

/-! ### Claim C3: the record / cancel round trip -/

/-- `find?` by tenant id commutes with any id-preserving row map. -/
theorem find?_tenant_map (f : Tenant → Tenant)
    (hf : ∀ t, (f t).tenant_id = t.tenant_id) (l : List Tenant) (tid : Nat) :
    (l.map f).find? (fun t => t.tenant_id == tid)
      = (l.find? (fun t => t.tenant_id == tid)).map f := by
  induction l with
  | nil => rfl
  | cons t rest ih =>
    by_cases h : (t.tenant_id == tid) = true
    · rw [List.map_cons,
        @List.find?_cons_of_pos _ (fun x => x.tenant_id == tid) (f t)
          (rest.map f) (by simpa [hf t] using h),
        @List.find?_cons_of_pos _ (fun x => x.tenant_id == tid) t rest h]
      rfl
    · rw [List.map_cons,
        @List.find?_cons_of_neg _ (fun x => x.tenant_id == tid) (f t)
          (rest.map f) (by simpa [hf t] using h),
        @List.find?_cons_of_neg _ (fun x => x.tenant_id == tid) t rest h]
      exact ih

/-- `keyLt` is asymmetric. -/
theorem keyLt_asymm {a b : Nat × Nat} (h : keyLt a b = true) : keyLt b a = false := by
  simp only [keyLt, Bool.or_eq_true, Bool.and_eq_true, decide_eq_true_eq,
    beq_iff_eq] at h
  simp only [keyLt, Bool.or_eq_false_iff, Bool.and_eq_false_iff,
    decide_eq_false_iff_not, beq_eq_false_iff_ne, ne_eq]
  omega

/-- Appending a row whose key strictly dominates every existing key makes it
the `ORDER BY ... DESC LIMIT 1` row. -/
theorem maxBy_append_dominant (key : Payment → Nat × Nat) (l : List Payment)
    (p : Payment) (h : ∀ q ∈ l, keyLt (key q) (key p) = true) :
    maxBy key (l ++ [p]) = some p := by
  induction l with
  | nil => rfl
  | cons x xs ih =>
    show maxBy key (x :: (xs ++ [p])) = some p
    unfold maxBy
    rw [ih (fun q hq => h q (List.mem_cons_of_mem x hq))]
    dsimp only
    rw [keyLt_asymm (h x (List.mem_cons_self x xs))]
    rfl

/-- The credit balance produced by cancelling a just-recorded payment:
`max((a + c) mod r − a, 0)` is the old credit when the payment covered no
full cycle, and 0 otherwise. -/
theorem cancel_credit_value (a c r : Int) (hr : 0 < r) (hc : 0 ≤ c)
    (hcr : c < r) (ha : 0 < a) :
    max (Int.tmod (a + c) r - a) 0 = if a + c < r then c else 0 := by
  have htot : 0 ≤ a + c := by omega
  rw [Int.tmod_eq_emod htot (by omega)]
  by_cases hlt : a + c < r
  · rw [if_pos hlt, Int.emod_eq_of_lt htot hlt]
    rcases max_cases (a + c - a) (0 : Int) with ⟨heq, _⟩ | ⟨heq, h2⟩ <;>
      rw [heq] <;> omega
  · rw [if_neg hlt]
    have hk : 1 ≤ (a + c) / r := by
      rw [Int.le_ediv_iff_mul_le hr]
      omega
    have hrk : r * 1 ≤ r * ((a + c) / r) :=
      mul_le_mul_of_nonneg_left hk (le_of_lt hr)
    have hdm := Int.ediv_add_emod (a + c) r
    rcases max_cases ((a + c) % r - a) (0 : Int) with ⟨heq, h2⟩ | ⟨heq, _⟩ <;>
      (rw [heq]; try omega)

/-- The tenant-row update functions of `recordPayment` and `cancelPayment`
(write credit balance and status on the matching id) preserve tenant ids. -/
theorem updFn_id (tid : Nat) (x : Int) (y : Status) (t : Tenant) :
    ((fun s : Tenant => if s.tenant_id == tid then
      { s with credit_balance := x, status := y } else s) t).tenant_id
      = t.tenant_id := by
  by_cases h : (t.tenant_id == tid) = true
  · dsimp only
    rw [if_pos h]
  · dsimp only
    rw [if_neg h]

/-- Cancelling a freshly inserted payment whose due-date key dominates the
tenant's existing payments: the row is removed, the derived due date
reverts to the pre-insertion one, and the tenant's credit becomes
`max(cNew − amount, 0)` with the status reclassified from the reverted due
date. -/
theorem cancelPayment_after_insert (db : DB) (tid : Nat) (todayC : CalDate)
    (tenant : Tenant) (row : Payment) (cNew : Int) (st1 : Status)
    (hfind : findTenant db tid = some tenant)
    (hrowid : row.payment_id = db.nextPaymentId)
    (hrowtid : row.tenant_id = tid)
    (hids : ∀ p ∈ db.payments, p.payment_id < db.nextPaymentId)
    (hdom : ∀ q ∈ tenantPayments db tid,
      dayNumber q.next_due_date ≤ dayNumber row.next_due_date) :
    ∃ db2,
      cancelPayment
        { db with
          payments := db.payments ++ [row]
          tenants := db.tenants.map (fun t =>
            if t.tenant_id == tid then
              { t with credit_balance := cNew, status := st1 }
            else t)
          nextPaymentId := db.nextPaymentId + 1 }
        row.payment_id todayC = .ok db2
      ∧ db2.payments = db.payments
      ∧ getTenantNextDueDate db2 tid todayC = getTenantNextDueDate db tid todayC
      ∧ findTenant db2 tid = some { tenant with
          credit_balance := max (cNew - row.amount_paid) 0
          status := classifyDate (getTenantNextDueDate db tid todayC)
            (decide (0 < (tenantPayments db tid).length)) (dayNumber todayC) } := by
  have hbeq0 := List.find?_some hfind
  have hbeq : (tenant.tenant_id == tid) = true := hbeq0
  have hfind0 : db.tenants.find? (fun t => t.tenant_id == tid) = some tenant := hfind
  have hFid : ∀ t : Tenant, ((fun t : Tenant =>
      if t.tenant_id == tid then
        { t with credit_balance := cNew, status := st1 } else t) t).tenant_id
      = t.tenant_id := fun t => updFn_id tid cNew st1 t
  -- the inserted row is the one `find?` returns
  have hfp : (db.payments ++ [row]).find?
      (fun p => p.payment_id == row.payment_id) = some row := by
    rw [List.find?_append]
    rw [List.find?_eq_none.mpr (fun p hp => by
      have := hids p hp
      simp only [hrowid, beq_iff_eq]
      omega)]
    rw [Option.none_or]
    exact List.find?_cons_of_pos _ (by simp)
  -- the tenant row after the payment write
  have hft1 : ((db.tenants.map (fun t =>
      if t.tenant_id == tid then
        { t with credit_balance := cNew, status := st1 } else t)).find?
        (fun t => t.tenant_id == tid))
      = some { tenant with credit_balance := cNew, status := st1 } := by
    rw [find?_tenant_map _ hFid, hfind0, Option.map_some', if_pos hbeq]
  -- the tenant's payments after the insertion
  have htp1 : (db.payments ++ [row]).filter (fun p => p.tenant_id == tid)
      = tenantPayments db tid ++ [row] := by
    rw [List.filter_append]
    show _ = tenantPayments db tid ++ [row]
    congr 1
    simp [hrowtid]
  -- the inserted row is the most recent by due-date order
  have hlast : maxBy ndKey (tenantPayments db tid ++ [row]) = some row := by
    apply maxBy_append_dominant
    intro q hq
    have h1 := hdom q hq
    have h2 : q.payment_id < db.nextPaymentId :=
      hids q (List.mem_of_mem_filter hq)
    simp only [ndKey, keyLt, hrowid, Bool.or_eq_true, Bool.and_eq_true,
      decide_eq_true_eq, beq_iff_eq]
    omega
  -- the previous-payment query sees exactly the old payments
  have hprev : (tenantPayments db tid ++ [row]).filter
      (fun p => decide (p.payment_id < row.payment_id)) = tenantPayments db tid := by
    rw [List.filter_append]
    rw [List.filter_eq_self.mpr (fun q hq => by
      have := hids q (List.mem_of_mem_filter hq)
      simp only [hrowid, decide_eq_true_eq]
      omega)]
    simp
  -- deleting the row restores the payments table
  have hrem : (db.payments ++ [row]).filter
      (fun p => p.payment_id != row.payment_id) = db.payments := by
    rw [List.filter_append]
    rw [List.filter_eq_self.mpr (fun q hq => by
      have := hids q hq
      simp only [hrowid, bne_iff_ne, ne_eq]
      omega)]
    simp
  -- the derived due date of the original state
  have hget : getTenantNextDueDate db tid todayC
      = dueDateFrom (maxBy ndKey (tenantPayments db tid)) tenant := by
    unfold getTenantNextDueDate lastPaymentByDueDate
    rw [hfind]
  -- the restored due date, seen from the updated tenant row
  have hdd : dueDateFrom (maxBy ndKey (tenantPayments db tid))
        { tenant with credit_balance := cNew, status := st1 }
      = getTenantNextDueDate db tid todayC := by
    rw [hget]
    unfold dueDateFrom
    cases maxBy ndKey (tenantPayments db tid) <;> rfl
  unfold cancelPayment
  dsimp only
  rw [hfp]
  dsimp only
  rw [hrowtid]
  unfold findTenant
  dsimp only
  rw [hft1]
  dsimp only
  unfold lastPaymentByDueDate tenantPayments
  dsimp only
  rw [htp1, hlast]
  dsimp only
  simp only [beq_self_eq_true, Bool.not_true]
  rw [if_neg (by simp)]
  rw [hprev, hrem, hdd]
  rw [show List.filter (fun p => p.tenant_id == tid) db.payments
    = tenantPayments db tid from rfl]
  refine ⟨_, rfl, rfl, ?_, ?_⟩
  · -- the derived due date is restored
    rw [hget]
    unfold getTenantNextDueDate findTenant
    dsimp only
    rw [find?_tenant_map _ (fun t => updFn_id tid _ _ t),
      find?_tenant_map _ (fun t => updFn_id tid _ _ t), hfind0]
    simp only [Option.map_some']
    rw [if_pos hbeq]
    try dsimp only
    rw [if_pos hbeq]
    unfold lastPaymentByDueDate tenantPayments dueDateFrom
    cases maxBy ndKey (List.filter (fun p => p.tenant_id == tid) db.payments) <;> rfl
  · -- the tenant row after the cancellation
    try dsimp only
    rw [find?_tenant_map _ (fun t => updFn_id tid _ _ t),
      find?_tenant_map _ (fun t => updFn_id tid _ _ t), hfind0]
    simp only [Option.map_some']
    rw [if_pos hbeq]
    try dsimp only
    rw [if_pos hbeq]

/-- C3 counterexample: tenant with prior credit 100,000 and rent 300,000;
recording a 300,000 payment (one cycle covered) and cancelling it leaves a
credit balance of 0, not the 100,000 held before the payment — exactly the
nonzero-prior-credit, at-least-one-cycle case the claim singles out. Status
and the derived due date are restored; the credit is not. -/
theorem roundtrip_counterexample :
    ((recordPayment sampleDBCredit100 ⟨1, 300000, ⟨2024, 1, 15⟩⟩
        ⟨2024, 1, 15⟩).toOption.bind
      (fun x => (cancelPayment x.1 x.2.paymentId ⟨2024, 1, 15⟩).toOption)).map
      (fun db2 => db2.tenants.map (fun t => (t.credit_balance, t.status)))
      = some [(0, .dueSoon)]
    ∧ sampleDBCredit100.tenants.map (fun t => (t.credit_balance, t.status))
      = [(100000, .dueSoon)]
    ∧ ((recordPayment sampleDBCredit100 ⟨1, 300000, ⟨2024, 1, 15⟩⟩
        ⟨2024, 1, 15⟩).toOption.bind
      (fun x => (cancelPayment x.1 x.2.paymentId ⟨2024, 1, 15⟩).toOption)).map
      (fun db2 => db2.tenants.map Tenant.credit_balance) ≠ some [100000] := by
  refine ⟨by decide, by decide, by decide⟩

/-- C3 amended: `recordPayment` followed by `cancelPayment` of the payment
it created (when that payment ends up the tenant's most recent by due-date
order) restores the payments table, the derived `next_due_date`, and — when
the stored status is consistent with the classifier — the status; the
credit balance is restored exactly when the payment covered no full cycle,
and is clamped to 0 (`max(credit − amount, 0)`) otherwise, losing any
nonzero prior credit. -/
theorem record_cancel_roundtrip (db : DB) (req : PaymentRequest)
    (todayC : CalDate) (tenant : Tenant)
    (hfind : findTenant db req.tenantId = some tenant)
    (hr : 0 < tenant.monthly_rent)
    (hc : 0 ≤ tenant.credit_balance)
    (hcr : tenant.credit_balance < tenant.monthly_rent)
    (ha : 0 < req.amountPaid)
    (hids : ∀ p ∈ db.payments, p.payment_id < db.nextPaymentId)
    (hdom : ∀ q ∈ tenantPayments db req.tenantId,
      dayNumber q.next_due_date ≤
        dayNumber (advanceCycles (recordBaseDate db req.tenantId tenant)
          tenant.rent_cycle
          (Int.fdiv (req.amountPaid + tenant.credit_balance)
            tenant.monthly_rent).toNat))
    (hstatus : tenant.status =
      classifyDate (getTenantNextDueDate db req.tenantId todayC)
        (decide (0 < (tenantPayments db req.tenantId).length)) (dayNumber todayC)) :
    ∃ db1 res, recordPayment db req todayC = .ok (db1, res)
      ∧ ∃ db2, cancelPayment db1 res.paymentId todayC = .ok db2
        ∧ db2.payments = db.payments
        ∧ getTenantNextDueDate db2 req.tenantId todayC
            = getTenantNextDueDate db req.tenantId todayC
        ∧ findTenant db2 req.tenantId = some { tenant with credit_balance :=
            if req.amountPaid + tenant.credit_balance < tenant.monthly_rent
            then tenant.credit_balance else 0 } := by
  unfold recordPayment
  rw [hfind]
  dsimp only
  refine ⟨_, _, rfl, ?_⟩
  obtain ⟨db2, hcancel, hpays, hdue, hfound⟩ :=
    cancelPayment_after_insert db req.tenantId todayC tenant
      { payment_id := db.nextPaymentId
        tenant_id := req.tenantId
        amount_paid := req.amountPaid
        months_paid_for :=
          Int.fdiv (req.amountPaid + tenant.credit_balance) tenant.monthly_rent
        payment_date := req.paymentDate
        next_due_date :=
          advanceCycles (recordBaseDate db req.tenantId tenant) tenant.rent_cycle
            (Int.fdiv (req.amountPaid + tenant.credit_balance)
              tenant.monthly_rent).toNat
        rent_amount_at_payment := tenant.monthly_rent
        rent_cycle_at_payment := tenant.rent_cycle }
      (Int.tmod (req.amountPaid + tenant.credit_balance) tenant.monthly_rent)
      (classifyDate
        (advanceCycles (recordBaseDate db req.tenantId tenant) tenant.rent_cycle
          (Int.fdiv (req.amountPaid + tenant.credit_balance)
            tenant.monthly_rent).toNat)
        true (dayNumber todayC))
      hfind rfl rfl hids hdom
  dsimp only at hfound
  rw [cancel_credit_value req.amountPaid tenant.credit_balance tenant.monthly_rent
    hr hc hcr ha] at hfound
  rw [← hstatus] at hfound
  exact ⟨db2, hcancel, hpays, hdue, hfound⟩

/-- C3 amended, witness: on the fixture tenant with prior credit 100,000
(rent 300,000, consistent status) the round trip for a 300,000 payment
restores the payments table, the derived due date, and the status, while
the credit balance follows the clamp rule (here 400,000 ≥ 300,000, so it
becomes 0 rather than 100,000). -/
theorem record_cancel_roundtrip_witness :
    ∃ db1 res,
      recordPayment sampleDBCredit100 ⟨1, 300000, ⟨2024, 1, 15⟩⟩ ⟨2024, 1, 15⟩
        = .ok (db1, res)
      ∧ ∃ db2, cancelPayment db1 res.paymentId ⟨2024, 1, 15⟩ = .ok db2
        ∧ db2.payments = sampleDBCredit100.payments
        ∧ getTenantNextDueDate db2 1 ⟨2024, 1, 15⟩
            = getTenantNextDueDate sampleDBCredit100 1 ⟨2024, 1, 15⟩
        ∧ findTenant db2 1 = some { tenantCredit100 with credit_balance :=
            if (300000 : Int) + tenantCredit100.credit_balance
                < tenantCredit100.monthly_rent
            then tenantCredit100.credit_balance else 0 } :=
  record_cancel_roundtrip sampleDBCredit100 ⟨1, 300000, ⟨2024, 1, 15⟩⟩ ⟨2024, 1, 15⟩
    tenantCredit100 (by decide) (by decide) (by decide) (by decide) (by decide)
    (by decide) (by decide) (by decide)

end RentalTrack
